import Mathlib

/-!
# Verification of the prophet-model microservice/entity graph builder

Shallow embedding of `src/prophet-model/src/lib.rs`. Dynamically typed
record values (the `runestick::Value` type of the external extraction
layer) are modelled by an inductive `Value`; records (`BTreeMap<String,
Value>`) by association lists with unique keys and first-occurrence
lookup; `petgraph::DiGraph` by a list of node weights plus a list of
`(source index, target index, weight)` edges, where `add_node` appends
and returns the position. Fallible Rust code returning `Result`/`Option`
becomes `Except`/`Option`; the `?` operator becomes monadic bind.
-/

namespace Prophet

/-- Modelled from the spec: a dynamically-typed value of the external
extraction layer (`runestick::Value`). Only the shapes this crate
inspects are distinguished: strings, ordered sequences, nested records;
every other variant is collapsed into `other`. -/
inductive Value where
  | str (s : String)
  | vec (items : List Value)
  | obj (fields : List (String × Value))
  | other

/-- A record (`BTreeMap<String, Value>`): ordered mapping with unique
keys, exact-match case-sensitive first-occurrence lookup (spec §4.1). -/
abbrev Record := List (String × Value)

/-- Modelled from the spec: the extraction result (`RessaResult`), a
mapping from context names to context records; `result.get("ctx")`. -/
abbrev RessaResult := List (String × Record)

/-- Modelled from the spec: the Record Accessor's typed error
(§4.1: `MissingField | WrongType`); `InvalidType` carries a message,
as in `ressa::Error::InvalidType("Bad HTTP method")`. -/
inductive RessaError where
  | MissingField (field : String)
  | InvalidType (msg : String)
deriving DecidableEq

/-- Modelled from the spec (§4.1): `extract_scalar(record, key,
into_string)` — exact-match lookup of `key`; a missing key is a
`MissingField` error, a non-string value a `WrongType`-class error. -/
def ressaExtractString (r : Record) (key : String) : Except RessaError String :=
  match List.lookup key r with
  | none => .error (.MissingField key)
  | some (.str s) => .ok s
  | some _ => .error (.InvalidType key)

/-- Modelled from the spec (§4.1): coercing a dynamic value to a nested
record (`extract_object`), failing on any non-record value. -/
def coerceRecord : Value → Except RessaError Record
  | .obj fields => .ok fields
  | _ => .error (.InvalidType "object")

/-- Abort-at-first-error traversal over `Except`, the behaviour of
mapping a fallible conversion over a sequence and collecting. -/
def exceptTraverse (f : α → Except RessaError β) : List α → Except RessaError (List β)
  | [] => .ok []
  | a :: as =>
    match f a with
    | .error e => .error e
    | .ok b =>
      match exceptTraverse f as with
      | .error e => .error e
      | .ok bs => .ok (b :: bs)

/-- Modelled from the spec (§4.1): `extract_sequence` composed with
per-element record coercion — `ressa::extract_vec(r, key, into_object)`
followed by `map(ressa::extract_object)`. Missing key, non-sequence
value, or any non-record element is an error. -/
def ressaExtractVec (r : Record) (key : String) : Except RessaError (List Record) :=
  match List.lookup key r with
  | none => .error (.MissingField key)
  | some (.vec items) => exceptTraverse coerceRecord items
  | some _ => .error (.InvalidType key)

/-- Abort-at-first-`none` traversal over `Option`: the shape of a Rust
`for` loop whose body uses `?` inside a function returning `Option`. -/
def optionTraverse (f : α → Option β) : List α → Option (List β)
  | [] => some []
  | a :: as =>
    match f a with
    | none => none
    | some b =>
      match optionTraverse f as with
      | none => none
      | some bs => some (b :: bs)

/-- Modelled from the spec: `source_code_parser::Language`, an
implementation-language classification obtained by a total `From<String>`
conversion. Its internal variants are irrelevant to every claim, so it
is modelled as carrying the classified string. -/
structure Language where
  ofLang :: (raw : String)
deriving DecidableEq

/-- Source `Language::from(String)` — total, never fails. -/
def Language.fromString (s : String) : Language := ⟨s⟩

/-- Source `DatabaseType` (lib.rs:156-160). -/
inductive DatabaseType where
  | MySQL
  | MongoDB
  | Unknown (original : String)
deriving DecidableEq

/-- Source `impl From<String> for DatabaseType` (lib.rs:162-170): exact match on
"MySQL" and "MongoDB", every other string preserved in `Unknown`. -/
def DatabaseType.fromString (value : String) : DatabaseType :=
  if value = "MySQL" then .MySQL
  else if value = "MongoDB" then .MongoDB
  else .Unknown value

/-- Source `Field` (lib.rs:172-176). -/
structure Field where
  name : String
  ty : String
deriving DecidableEq

/-- Source `impl TryFrom<&BTreeMap<String, Value>> for Field` (lib.rs:178-186):
both `name` and `type` must extract as strings. -/
def Field.tryFrom (entity : Record) : Except RessaError Field :=
  match ressaExtractString entity "name" with
  | .error e => .error e
  | .ok name =>
    match ressaExtractString entity "type" with
    | .error e => .error e
    | .ok ty => .ok { name := name, ty := ty }

/-- Source `Entity` (lib.rs:131-136). -/
structure Entity where
  name : String
  fields : List Field
  ty : DatabaseType
deriving DecidableEq

/-- Source `impl TryFrom<&BTreeMap<String, Value>> for Entity` (lib.rs:138-153):
`name` and `type` are required; the `fields` sequence is required but
its elements are parsed independently, failures silently dropped
(`flat_map(|f| Field::try_from(&f))`). -/
def Entity.tryFrom (entity : Record) : Except RessaError Entity :=
  match ressaExtractString entity "name" with
  | .error e => .error e
  | .ok name =>
    match ressaExtractString entity "type" with
    | .error e => .error e
    | .ok tyStr =>
      match ressaExtractVec entity "fields" with
      | .error e => .error e
      | .ok fieldRecs =>
        .ok { name := name,
              fields := fieldRecs.filterMap (fun f => (Field.tryFrom f).toOption),
              ty := DatabaseType.fromString tyStr }

/-- Modelled from the external `http` crate: `http::Method`. Standard
methods are named variants; any other valid HTTP token is an extension
method. -/
inductive Method where
  | GET | POST | PUT | DELETE | HEAD | OPTIONS | CONNECT | PATCH | TRACE
  | extension (s : String)
deriving DecidableEq

/-- Modelled from the external `http` crate: the token-character table of
`Method::from_bytes` (RFC 7230 tchar, given here by code point). -/
def Method.isMethodChar (c : Char) : Bool :=
  let n := c.toNat
  (65 ≤ n && n ≤ 90) || (97 ≤ n && n ≤ 122) || (48 ≤ n && n ≤ 57) ||
  n == 33 || n == 35 || n == 36 || n == 37 || n == 38 || n == 39 ||
  n == 42 || n == 43 || n == 45 || n == 46 || n == 94 || n == 95 ||
  n == 96 || n == 124 || n == 126

/-- Modelled from the external `http` crate: `Method::from_str`, used at
lib.rs:31. Recognizes the nine standard methods by exact match and any
other non-empty all-token-character string as an extension method; the
empty string and strings with invalid characters fail. -/
def Method.fromStr (s : String) : Option Method :=
  if s = "GET" then some .GET
  else if s = "POST" then some .POST
  else if s = "PUT" then some .PUT
  else if s = "DELETE" then some .DELETE
  else if s = "HEAD" then some .HEAD
  else if s = "OPTIONS" then some .OPTIONS
  else if s = "CONNECT" then some .CONNECT
  else if s = "PATCH" then some .PATCH
  else if s = "TRACE" then some .TRACE
  else if s.length ≠ 0 && s.toList.all Method.isMethodChar then some (.extension s)
  else none

/-- Source `MicroserviceCall` (lib.rs:17-21). -/
inductive MicroserviceCall where
  | Http (method : Method)
  | Rpc
deriving DecidableEq

/-- Source `impl TryFrom<&BTreeMap<String, Value>> for MicroserviceCall`
(lib.rs:23-38): a `method` field that extracts as a string is parsed as
an HTTP verb (parse failure is a fatal `InvalidType "Bad HTTP method"`);
a failed extraction of `method` yields `Rpc`. -/
def MicroserviceCall.tryFrom (call : Record) : Except RessaError MicroserviceCall :=
  match ressaExtractString call "method" with
  | .ok method =>
    match Method.fromStr method with
    | some v => .ok (.Http v)
    | none => .error (.InvalidType "Bad HTTP method")
  | .error _ => .ok .Rpc

/-- Source `Microservice` (lib.rs:10-15). The Rust `ref_entities` holds
references into the entity graph; here entities are carried by value. -/
structure Microservice where
  name : String
  language : Language
  ref_entities : List Entity
deriving DecidableEq

/-- Modelled from the external `petgraph::DiGraph`: node weights in insertion order; edges as
`(source index, target index, weight)` in insertion order. `add_node`
appends and returns the node's position. -/
structure DiGraph (N E : Type) where
  nodes : List N
  edges : List (Nat × Nat × E)
deriving DecidableEq

/-- Source `Multiplicity` (lib.rs:188-191): an open tagged union with, at
present, no variants. -/
inductive Multiplicity where
deriving DecidableEq

/-- Source `EntityGraph` (lib.rs:193-194), with `as_ref` exposing the graph. -/
structure EntityGraph where
  graph : DiGraph Entity Multiplicity
deriving DecidableEq

/-- Source `impl From<&[Entity]> for EntityGraph` (lib.rs:196-200). The body is
`todo!()`: it panics unconditionally; a panic is modelled as `none`. -/
def EntityGraph.fromEntities (_entities : List Entity) : Option EntityGraph :=
  none

/-- Source `MicroserviceGraph` (lib.rs:40-41). -/
structure MicroserviceGraph where
  graph : DiGraph Microservice MicroserviceCall
deriving DecidableEq

/-- The per-service closure of `MicroserviceGraph::add_nodes`
(lib.rs:101-120): `name` and `language` must extract as strings and the
`entities` sequence must extract; each declared entity record is parsed
with `Entity::try_from` (failures dropped), the parsed names collected,
and the graph's entities filtered to those whose name is declared. -/
def MicroserviceGraph.buildNode (entities : List Entity) (service : Record) :
    Option Microservice :=
  match ressaExtractString service "name" with
  | .error _ => none
  | .ok name =>
    match ressaExtractString service "language" with
    | .error _ => none
    | .ok lang =>
      match ressaExtractVec service "entities" with
      | .error _ => none
      | .ok entityRecs =>
        let entityNames :=
          (entityRecs.filterMap (fun er => (Entity.tryFrom er).toOption)).map Entity.name
        let refEntities := entities.filter (fun e => entityNames.contains e.name)
        some { name := name, language := Language.fromString lang,
               ref_entities := refEntities }

/-- Source `MicroserviceGraph::add_nodes` (lib.rs:94-128): one node appended per
service record whose closure succeeds, returning the indices of the
appended nodes. -/
def MicroserviceGraph.add_nodes (graph : DiGraph Microservice MicroserviceCall)
    (services : List Record) (entities : List Entity) :
    DiGraph Microservice MicroserviceCall × List Nat :=
  let newNodes := services.filterMap (MicroserviceGraph.buildNode entities)
  ({ nodes := graph.nodes ++ newNodes, edges := graph.edges },
   (List.range newNodes.length).map (· + graph.nodes.length))

/-- The per-service closure of the edge phase (lib.rs:63-70): extract the
service's `name` and its `calls` sequence; a service failing either is
skipped (`flat_map`). -/
def MicroserviceGraph.extractCalls (service : Record) : Option (String × List Record) :=
  match ressaExtractString service "name" with
  | .error _ => none
  | .ok name =>
    match ressaExtractVec service "calls" with
    | .error _ => none
    | .ok calls => some (name, calls)

/-- The node-index search of the edge phase (lib.rs:74-76, 80-82):
`indices.iter().find(|ndx| graph[**ndx].name == name)`. -/
def MicroserviceGraph.findIndex (graph : DiGraph Microservice MicroserviceCall)
    (indices : List Nat) (name : String) : Option Nat :=
  indices.find? (fun i => (graph.nodes.get? i).map Microservice.name == some name)

/-- One iteration of the inner call loop (lib.rs:78-86): the callee name
must extract, resolve to a node index, and the call must classify; any
failure aborts (`?` in a function returning `Option`). -/
def MicroserviceGraph.callEdge (graph : DiGraph Microservice MicroserviceCall)
    (indices : List Nat) (serviceNdx : Nat) (call : Record) :
    Option (Nat × Nat × MicroserviceCall) :=
  match (ressaExtractString call "name").toOption with
  | none => none
  | some calledName =>
    match MicroserviceGraph.findIndex graph indices calledName with
    | none => none
    | some calledNdx =>
      match (MicroserviceCall.tryFrom call).toOption with
      | none => none
      | some c => some (serviceNdx, calledNdx, c)

/-- One iteration of the outer edge loop (lib.rs:73-87): resolve the
enclosing caller's index (failure aborts), then produce one edge per
call. -/
def MicroserviceGraph.serviceEdges (graph : DiGraph Microservice MicroserviceCall)
    (indices : List Nat) (p : String × List Record) :
    Option (List (Nat × Nat × MicroserviceCall)) :=
  match MicroserviceGraph.findIndex graph indices p.1 with
  | none => none
  | some serviceNdx =>
    optionTraverse (MicroserviceGraph.callEdge graph indices serviceNdx) p.2

/-- Source `MicroserviceGraph::try_new` (lib.rs:44-92): locate the `ctx`
context, extract the `services` sequence, add nodes, then add one
directed edge per call of each service that exposes a name and a call
sequence; any unresolved name or invalid method aborts the whole build. -/
def MicroserviceGraph.tryNew (result : RessaResult) (entities : EntityGraph) :
    Option MicroserviceGraph :=
  match List.lookup "ctx" result with
  | none => none
  | some ctx =>
    match (ressaExtractVec ctx "services").toOption with
    | none => none
    | some services =>
      let entityList := entities.graph.nodes
      let gi := MicroserviceGraph.add_nodes { nodes := [], edges := [] } services entityList
      let pairs := services.filterMap MicroserviceGraph.extractCalls
      match optionTraverse (MicroserviceGraph.serviceEdges gi.1 gi.2) pairs with
      | none => none
      | some edgeLists =>
        some { graph := { nodes := gi.1.nodes, edges := gi.1.edges ++ edgeLists.flatten } }

/-! ## Helper lemmas about the traversals and the build pipeline -/

theorem optionTraverse_eq_none_of_mem {f : α → Option β} {l : List α} {a : α}
    (ha : a ∈ l) (hfa : f a = none) : optionTraverse f l = none := by
  induction l with
  | nil => cases ha
  | cons x xs ih =>
    rcases List.mem_cons.mp ha with rfl | hmem
    · simp [optionTraverse, hfa]
    · cases hfx : f x with
      | none => simp [optionTraverse, hfx]
      | some b => simp [optionTraverse, hfx, ih hmem]

theorem optionTraverse_length {f : α → Option β} {l : List α} {l' : List β}
    (h : optionTraverse f l = some l') : l'.length = l.length := by
  induction l generalizing l' with
  | nil => simp [optionTraverse] at h; simp [← h]
  | cons x xs ih =>
    cases hfx : f x with
    | none => simp [optionTraverse, hfx] at h
    | some b =>
      cases hrest : optionTraverse f xs with
      | none => simp [optionTraverse, hfx, hrest] at h
      | some bs =>
        simp only [optionTraverse, hfx, hrest] at h
        injection h with h
        simp [← h, ih hrest]

theorem optionTraverse_mem {f : α → Option β} {l : List α} {l' : List β} {b : β}
    (h : optionTraverse f l = some l') (hb : b ∈ l') : ∃ a ∈ l, f a = some b := by
  induction l generalizing l' with
  | nil => simp [optionTraverse] at h; subst h; cases hb
  | cons x xs ih =>
    cases hfx : f x with
    | none => simp [optionTraverse, hfx] at h
    | some c =>
      cases hrest : optionTraverse f xs with
      | none => simp [optionTraverse, hfx, hrest] at h
      | some bs =>
        simp only [optionTraverse, hfx, hrest] at h
        injection h with h
        subst h
        rcases List.mem_cons.mp hb with rfl | hmem
        · exact ⟨x, List.mem_cons_self x xs, hfx⟩
        · rcases ih hrest hmem with ⟨a, hal, hfa⟩
          exact ⟨a, List.mem_cons_of_mem x hal, hfa⟩

theorem length_filterMap_eq_countP (f : α → Option β) (l : List α) :
    (l.filterMap f).length = l.countP (fun a => (f a).isSome) := by
  induction l with
  | nil => rfl
  | cons x xs ih => cases h : f x <;> simp [List.filterMap_cons, h, List.countP_cons, ih]

/-- Running `add_nodes` on the fresh graph `try_new` passes in: the resulting
nodes are the defined services in order, the edges stay empty, and the
returned indices are `0, 1, …`. -/
theorem MicroserviceGraph.add_nodes_empty (services : List Record) (entities : List Entity) :
    MicroserviceGraph.add_nodes { nodes := [], edges := [] } services entities =
      ({ nodes := services.filterMap (MicroserviceGraph.buildNode entities), edges := [] },
       List.range (services.filterMap (MicroserviceGraph.buildNode entities)).length) := by
  simp [MicroserviceGraph.add_nodes]

/-- A node is built for a service record exactly when `name`,
`language` and the `entities` sequence all extract. -/
theorem MicroserviceGraph.buildNode_isSome (entities : List Entity) (s : Record) :
    (MicroserviceGraph.buildNode entities s).isSome =
      ((ressaExtractString s "name").toOption.isSome &&
       (ressaExtractString s "language").toOption.isSome &&
       (ressaExtractVec s "entities").toOption.isSome) := by
  unfold MicroserviceGraph.buildNode
  cases ressaExtractString s "name" with
  | error e => simp [Except.toOption]
  | ok n =>
    cases ressaExtractString s "language" with
    | error e => simp [Except.toOption]
    | ok l =>
      cases ressaExtractVec s "entities" with
      | error e => simp [Except.toOption]
      | ok ercs => simp [Except.toOption]

/-- If no node of the graph bears the sought name, the index search
fails, whatever index list is searched. -/
theorem MicroserviceGraph.findIndex_eq_none {graph : DiGraph Microservice MicroserviceCall}
    {indices : List Nat} {name : String}
    (h : ∀ m ∈ graph.nodes, m.name ≠ name) :
    MicroserviceGraph.findIndex graph indices name = none := by
  unfold MicroserviceGraph.findIndex
  rw [List.find?_eq_none]
  intro i _ hpred
  rw [beq_iff_eq] at hpred
  cases hnode : graph.nodes.get? i with
  | none => rw [hnode] at hpred; cases hpred
  | some m =>
    rw [hnode] at hpred
    simp only [Option.map_some'] at hpred
    exact h m (List.get?_mem hnode) (by injection hpred)

/-- A successful index search returns a valid index of a node bearing
the sought name. -/
theorem MicroserviceGraph.findIndex_some {graph : DiGraph Microservice MicroserviceCall}
    {indices : List Nat} {name : String} {i : Nat}
    (h : MicroserviceGraph.findIndex graph indices name = some i) :
    ∃ m, graph.nodes.get? i = some m ∧ m.name = name := by
  have hpred := List.find?_some h
  rw [beq_iff_eq] at hpred
  cases hnode : graph.nodes.get? i with
  | none => rw [hnode] at hpred; cases hpred
  | some m =>
    rw [hnode] at hpred
    simp only [Option.map_some'] at hpred
    exact ⟨m, rfl, by injection hpred⟩

/-- A call whose extracted target name resolves to no node aborts,
whatever the caller's index. -/
theorem MicroserviceGraph.callEdge_eq_none_of_unresolved
    {graph : DiGraph Microservice MicroserviceCall} {indices : List Nat}
    {call : Record} {cname : String} (n : Nat)
    (hname : ressaExtractString call "name" = .ok cname)
    (hfind : MicroserviceGraph.findIndex graph indices cname = none) :
    MicroserviceGraph.callEdge graph indices n call = none := by
  unfold MicroserviceGraph.callEdge
  rw [hname]
  simp [Except.toOption, hfind]

/-- A call that fails classification aborts, whatever the caller's
index. -/
theorem MicroserviceGraph.callEdge_eq_none_of_badMethod
    {graph : DiGraph Microservice MicroserviceCall} {indices : List Nat}
    {call : Record} {e : RessaError} (n : Nat)
    (hbad : MicroserviceCall.tryFrom call = .error e) :
    MicroserviceGraph.callEdge graph indices n call = none := by
  unfold MicroserviceGraph.callEdge
  cases hname : (ressaExtractString call "name").toOption with
  | none => rfl
  | some cname =>
    dsimp only
    cases hfind : MicroserviceGraph.findIndex graph indices cname with
    | none => rfl
    | some i => simp [hbad, Except.toOption]

/-- A service pair whose caller name resolves to no node aborts the
edge phase for that pair. -/
theorem MicroserviceGraph.serviceEdges_eq_none_of_caller
    {graph : DiGraph Microservice MicroserviceCall} {indices : List Nat}
    {p : String × List Record}
    (h : MicroserviceGraph.findIndex graph indices p.1 = none) :
    MicroserviceGraph.serviceEdges graph indices p = none := by
  unfold MicroserviceGraph.serviceEdges
  rw [h]

/-- A service pair one of whose calls aborts (for every possible caller
index) aborts the edge phase for that pair. -/
theorem MicroserviceGraph.serviceEdges_eq_none_of_call
    {graph : DiGraph Microservice MicroserviceCall} {indices : List Nat}
    {p : String × List Record} {call : Record}
    (hc : call ∈ p.2)
    (hce : ∀ n, MicroserviceGraph.callEdge graph indices n call = none) :
    MicroserviceGraph.serviceEdges graph indices p = none := by
  unfold MicroserviceGraph.serviceEdges
  cases hfind : MicroserviceGraph.findIndex graph indices p.1 with
  | none => rfl
  | some serviceNdx => exact optionTraverse_eq_none_of_mem hc (hce serviceNdx)

/-- If the edge phase aborts for some service pair of the build, the
whole build returns no graph. -/
theorem MicroserviceGraph.tryNew_eq_none_of_pair
    {result : RessaResult} {eg : EntityGraph} {ctx : Record}
    {services : List Record} {p : String × List Record}
    (h1 : List.lookup "ctx" result = some ctx)
    (h2 : (ressaExtractVec ctx "services").toOption = some services)
    (hp : p ∈ services.filterMap MicroserviceGraph.extractCalls)
    (hse : MicroserviceGraph.serviceEdges
        (MicroserviceGraph.add_nodes { nodes := [], edges := [] } services eg.graph.nodes).1
        (MicroserviceGraph.add_nodes { nodes := [], edges := [] } services eg.graph.nodes).2
        p = none) :
    MicroserviceGraph.tryNew result eg = none := by
  unfold MicroserviceGraph.tryNew
  rw [h1]
  dsimp only
  rw [h2]
  dsimp only
  rw [optionTraverse_eq_none_of_mem hp hse]

/-- Inversion of a successful build: the context and service list were
found, every service pair produced its edge list, and the returned graph
is exactly the built nodes with the concatenated edges. -/
theorem MicroserviceGraph.tryNew_eq_some_inv
    {result : RessaResult} {eg : EntityGraph} {g : MicroserviceGraph}
    {ctx : Record} {services : List Record}
    (h1 : List.lookup "ctx" result = some ctx)
    (h2 : (ressaExtractVec ctx "services").toOption = some services)
    (h3 : MicroserviceGraph.tryNew result eg = some g) :
    ∃ edgeLists,
      optionTraverse
        (MicroserviceGraph.serviceEdges
          { nodes := services.filterMap (MicroserviceGraph.buildNode eg.graph.nodes),
            edges := [] }
          (List.range (services.filterMap (MicroserviceGraph.buildNode eg.graph.nodes)).length))
        (services.filterMap MicroserviceGraph.extractCalls) = some edgeLists ∧
      g.graph.nodes = services.filterMap (MicroserviceGraph.buildNode eg.graph.nodes) ∧
      g.graph.edges = edgeLists.flatten := by
  unfold MicroserviceGraph.tryNew at h3
  rw [h1] at h3
  dsimp only at h3
  rw [h2] at h3
  dsimp only at h3
  rw [MicroserviceGraph.add_nodes_empty] at h3
  dsimp only at h3
  cases htrav : optionTraverse
      (MicroserviceGraph.serviceEdges
        { nodes := services.filterMap (MicroserviceGraph.buildNode eg.graph.nodes), edges := [] }
        (List.range (services.filterMap (MicroserviceGraph.buildNode eg.graph.nodes)).length))
      (services.filterMap MicroserviceGraph.extractCalls) with
  | none => rw [htrav] at h3; cases h3
  | some edgeLists =>
    rw [htrav] at h3
    injection h3 with h3
    subst h3
    exact ⟨edgeLists, rfl, rfl, rfl⟩

/-- The length of a successful per-service edge list equals the number
of calls of that service. -/
theorem MicroserviceGraph.serviceEdges_length
    {graph : DiGraph Microservice MicroserviceCall} {indices : List Nat}
    {p : String × List Record} {ls : List (Nat × Nat × MicroserviceCall)}
    (h : MicroserviceGraph.serviceEdges graph indices p = some ls) :
    ls.length = p.2.length := by
  unfold MicroserviceGraph.serviceEdges at h
  cases hf : MicroserviceGraph.findIndex graph indices p.1 with
  | none => rw [hf] at h; cases h
  | some n => rw [hf] at h; exact optionTraverse_length h

/-- A successful call edge carries the given caller index and a callee
index at which a node exists. -/
theorem MicroserviceGraph.callEdge_eq_some_inv
    {graph : DiGraph Microservice MicroserviceCall} {indices : List Nat}
    {n : Nat} {call : Record} {e : Nat × Nat × MicroserviceCall}
    (h : MicroserviceGraph.callEdge graph indices n call = some e) :
    e.1 = n ∧ ∃ m, graph.nodes.get? e.2.1 = some m := by
  unfold MicroserviceGraph.callEdge at h
  cases h1 : (ressaExtractString call "name").toOption with
  | none => rw [h1] at h; cases h
  | some cname =>
    rw [h1] at h; dsimp only at h
    cases h2 : MicroserviceGraph.findIndex graph indices cname with
    | none => rw [h2] at h; cases h
    | some ci =>
      rw [h2] at h; dsimp only at h
      cases h3 : (MicroserviceCall.tryFrom call).toOption with
      | none => rw [h3] at h; cases h
      | some c =>
        rw [h3] at h; dsimp only at h
        injection h with h
        subst h
        obtain ⟨m, hm, _⟩ := MicroserviceGraph.findIndex_some h2
        exact ⟨rfl, m, hm⟩

/-- Successful edge-phase traversal: each produced edge list has the
length of its service pair's call list. -/
theorem optionTraverse_serviceEdges_map_length
    {graph : DiGraph Microservice MicroserviceCall} {indices : List Nat}
    {pairs : List (String × List Record)}
    {edgeLists : List (List (Nat × Nat × MicroserviceCall))}
    (h : optionTraverse (MicroserviceGraph.serviceEdges graph indices) pairs =
      some edgeLists) :
    edgeLists.map List.length = pairs.map (fun p => p.2.length) := by
  induction pairs generalizing edgeLists with
  | nil =>
    simp only [optionTraverse] at h
    injection h with h
    subst h
    rfl
  | cons p ps ih =>
    cases hse : MicroserviceGraph.serviceEdges graph indices p with
    | none => simp [optionTraverse, hse] at h
    | some ls =>
      cases hrest : optionTraverse (MicroserviceGraph.serviceEdges graph indices) ps with
      | none => simp [optionTraverse, hse, hrest] at h
      | some rest =>
        simp only [optionTraverse, hse, hrest] at h
        injection h with h
        subst h
        simp [MicroserviceGraph.serviceEdges_length hse, ih hrest]

/-! ## Concrete example inputs used by the claim theorems -/

/-- An empty entity graph. -/
def egEmpty : EntityGraph := { graph := { nodes := [], edges := [] } }

/-- An entity named "User", as it would sit in a finalized entity graph. -/
def userEntity : Entity := { name := "User", fields := [], ty := DatabaseType.Unknown "doc" }

/-- A call record targeting "B" with method "GET". -/
def exCallB : Record := [("name", Value.str "B"), ("method", Value.str "GET")]

/-- A complete service record "A" whose single call targets the
nonexistent service "B". -/
def exSvcCallsB : Record :=
  [("name", Value.str "A"), ("language", Value.str "go"),
   ("entities", Value.vec []), ("calls", Value.vec [Value.obj exCallB])]

/-- The context record holding `exSvcCallsB`. -/
def exCtxCallsB : Record := [("services", Value.vec [Value.obj exSvcCallsB])]

/-- The extraction result holding `exCtxCallsB`. -/
def exResultCallsB : RessaResult := [("ctx", exCtxCallsB)]

/-- A service record exposing `name` and `language` but no `entities`
sequence. -/
def exSvcNoEntities : Record := [("name", Value.str "A"), ("language", Value.str "go")]

/-- The extraction result holding `exSvcNoEntities`. -/
def exResultNoEntities : RessaResult :=
  [("ctx", [("services", Value.vec [Value.obj exSvcNoEntities])])]

/-- A service record exposing `name` and a `calls` sequence but no
`language`: its node is not built, yet the edge phase sees it. -/
def exSvcNoLanguage : Record := [("name", Value.str "A"), ("calls", Value.vec [])]

/-- The extraction result holding `exSvcNoLanguage`. -/
def exResultNoLanguage : RessaResult :=
  [("ctx", [("services", Value.vec [Value.obj exSvcNoLanguage])])]

/-- A service record exposing `name`, `language` and `entities` but no
`calls` sequence: its node is built and the edge phase skips it. -/
def exSvcNoCalls : Record :=
  [("name", Value.str "A"), ("language", Value.str "go"), ("entities", Value.vec [])]

/-- The extraction result holding `exSvcNoCalls`. -/
def exResultNoCalls : RessaResult :=
  [("ctx", [("services", Value.vec [Value.obj exSvcNoCalls])])]

/-- A service record declaring one entity reference that exposes only a
`name` ("User"), with no `type` or `fields`. -/
def exSvcRefUserNameOnly : Record :=
  [("name", Value.str "A"), ("language", Value.str "go"),
   ("entities", Value.vec [Value.obj [("name", Value.str "User")]])]

/-! ## Claim theorems -/

/-- C3: the claim says constructing an `EntityGraph` from a finalized
list of Entities emits exactly one node per Entity and terminates
normally. The source's `impl From<&[Entity]> for EntityGraph` body is
`todo!()`, which panics unconditionally (modelled as `none`): on the
concrete one-entity list the build panics instead of producing a
one-node graph. -/
theorem entityGraph_build_panics_on_singleton :
    EntityGraph.fromEntities [userEntity] = none := rfl

/-- C4: `DatabaseType` classification is total: exactly "MySQL" maps to
`MySQL`, exactly "MongoDB" to `MongoDB`, and any other string to
`Unknown` carrying the original text verbatim, so the string read back
out of `Unknown` is the input itself. -/
theorem databaseType_classification_total (s : String) :
    DatabaseType.fromString "MySQL" = DatabaseType.MySQL ∧
    DatabaseType.fromString "MongoDB" = DatabaseType.MongoDB ∧
    (s ≠ "MySQL" → s ≠ "MongoDB" → DatabaseType.fromString s = DatabaseType.Unknown s) := by
  refine ⟨rfl, rfl, fun h1 h2 => ?_⟩
  unfold DatabaseType.fromString
  rw [if_neg h1, if_neg h2]

/-- Witness for C4 at the spec's own example "Oracle". -/
theorem databaseType_classification_total_witness :
    DatabaseType.fromString "Oracle" = DatabaseType.Unknown "Oracle" :=
  (databaseType_classification_total "Oracle").2.2 (by decide) (by decide)

/-- C9: `MicroserviceGraph::try_new` is deterministic: two runs on the
same extraction result and entity graph give no graph both times, or two
graphs with equal node count, equal edge count, and equal edge labels
between same-named endpoints. -/
theorem tryNew_deterministic (result : RessaResult) (eg : EntityGraph) :
    (MicroserviceGraph.tryNew result eg = none ∧
     MicroserviceGraph.tryNew result eg = none) ∨
    (∃ g₁ g₂, MicroserviceGraph.tryNew result eg = some g₁ ∧
      MicroserviceGraph.tryNew result eg = some g₂ ∧
      g₁.graph.nodes.length = g₂.graph.nodes.length ∧
      g₁.graph.edges.length = g₂.graph.edges.length ∧
      g₁.graph.edges.map (fun e =>
          ((g₁.graph.nodes.get? e.1).map Microservice.name,
           (g₁.graph.nodes.get? e.2.1).map Microservice.name, e.2.2)) =
        g₂.graph.edges.map (fun e =>
          ((g₂.graph.nodes.get? e.1).map Microservice.name,
           (g₂.graph.nodes.get? e.2.1).map Microservice.name, e.2.2))) := by
  cases MicroserviceGraph.tryNew result eg with
  | none => exact Or.inl ⟨rfl, rfl⟩
  | some g => exact Or.inr ⟨g, g, rfl, rfl, rfl, rfl, rfl⟩

/-- C10: the lenient node-drop escalates to a fatal abort: the service
record `exSvcNoLanguage` exposes a `name` and a `calls` sequence but its
node is not built (no `language`), and the whole build returns no graph
because the caller's name resolves to no node; whereas the record
`exSvcNoCalls`, whose `calls` sequence fails to extract, is merely
skipped in the edge phase and the build returns a complete one-node
graph. -/
theorem node_drop_escalates_to_edge_abort :
    (ressaExtractString exSvcNoLanguage "name" = .ok "A" ∧
     (ressaExtractVec exSvcNoLanguage "calls").toOption.isSome = true ∧
     MicroserviceGraph.buildNode egEmpty.graph.nodes exSvcNoLanguage = none ∧
     MicroserviceGraph.tryNew exResultNoLanguage egEmpty = none) ∧
    ((ressaExtractVec exSvcNoCalls "calls").toOption = none ∧
     MicroserviceGraph.buildNode egEmpty.graph.nodes exSvcNoCalls ≠ none ∧
     (MicroserviceGraph.tryNew exResultNoCalls egEmpty).map
        (fun g => (g.graph.nodes.length, g.graph.edges)) = some (1, [])) := by
  refine ⟨⟨rfl, rfl, rfl, rfl⟩, rfl, ?_, rfl⟩
  intro h
  cases h

/-- C1: any call record whose target name matches no built service
node's name, or whose enclosing caller's name matches no node, makes
`MicroserviceGraph::try_new` return no graph at all (never a graph with
that edge omitted). -/
theorem tryNew_none_of_unresolved_name
    (result : RessaResult) (eg : EntityGraph) (ctx : Record)
    (services : List Record) (p : String × List Record)
    (h1 : List.lookup "ctx" result = some ctx)
    (h2 : (ressaExtractVec ctx "services").toOption = some services)
    (hp : p ∈ services.filterMap MicroserviceGraph.extractCalls)
    (hbad :
      (∀ m ∈ (MicroserviceGraph.add_nodes { nodes := [], edges := [] } services
          eg.graph.nodes).1.nodes, m.name ≠ p.1) ∨
      (∃ call ∈ p.2, ∃ cname, ressaExtractString call "name" = .ok cname ∧
        ∀ m ∈ (MicroserviceGraph.add_nodes { nodes := [], edges := [] } services
            eg.graph.nodes).1.nodes, m.name ≠ cname)) :
    MicroserviceGraph.tryNew result eg = none := by
  refine MicroserviceGraph.tryNew_eq_none_of_pair h1 h2 hp ?_
  rcases hbad with hcaller | ⟨call, hc, cname, hcn, hnone⟩
  · exact MicroserviceGraph.serviceEdges_eq_none_of_caller
      (MicroserviceGraph.findIndex_eq_none hcaller)
  · exact MicroserviceGraph.serviceEdges_eq_none_of_call hc
      (fun n => MicroserviceGraph.callEdge_eq_none_of_unresolved n hcn
        (MicroserviceGraph.findIndex_eq_none hnone))

/-- Witness for C1 at the spec's example: one service "A" whose single
call targets "B", and no service named "B" exists. -/
theorem tryNew_none_of_unresolved_name_witness :
    MicroserviceGraph.tryNew exResultCallsB egEmpty = none :=
  tryNew_none_of_unresolved_name exResultCallsB egEmpty exCtxCallsB
    [exSvcCallsB] ("A", [exCallB]) rfl rfl (List.Mem.head _)
    (Or.inr ⟨exCallB, List.Mem.head _, "B", rfl, by decide⟩)

/-- C2 counterexample: the service record `exSvcNoEntities` has both
`name` and `language` resolvable (the claim therefore predicts one
node), yet the build returns a graph with zero nodes, because
`add_nodes` also requires the `entities` sequence to extract. -/
theorem node_count_claim_cex :
    ressaExtractString exSvcNoEntities "name" = .ok "A" ∧
    ressaExtractString exSvcNoEntities "language" = .ok "go" ∧
    [exSvcNoEntities].countP (fun s =>
      (ressaExtractString s "name").toOption.isSome &&
      (ressaExtractString s "language").toOption.isSome) = 1 ∧
    (MicroserviceGraph.tryNew exResultNoEntities egEmpty).map
      (fun g => g.graph.nodes.length) = some 0 ∧
    (0 : Nat) ≠ 1 :=
  ⟨rfl, rfl, rfl, rfl, by decide⟩

/-- C2 amended: in every returned Microservice Graph, the node count
equals the number of service records from which `name`, `language` and
the `entities` sequence are all resolvable; a record missing any of the
three yields no node and no error, and each record yields at most one
node. -/
theorem node_count_amended
    (result : RessaResult) (eg : EntityGraph) (g : MicroserviceGraph)
    (ctx : Record) (services : List Record)
    (h1 : List.lookup "ctx" result = some ctx)
    (h2 : (ressaExtractVec ctx "services").toOption = some services)
    (h3 : MicroserviceGraph.tryNew result eg = some g) :
    g.graph.nodes.length = services.countP (fun s =>
      (ressaExtractString s "name").toOption.isSome &&
      (ressaExtractString s "language").toOption.isSome &&
      (ressaExtractVec s "entities").toOption.isSome) := by
  obtain ⟨edgeLists, htrav, hnodes, hedges⟩ :=
    MicroserviceGraph.tryNew_eq_some_inv h1 h2 h3
  rw [hnodes, length_filterMap_eq_countP]
  exact List.countP_congr (fun s _ => by rw [MicroserviceGraph.buildNode_isSome])

/-- The input for the C2 amended witness: one complete service record
and one missing `language`. -/
def exResultMixed : RessaResult :=
  [("ctx", [("services", Value.vec [Value.obj exSvcNoCalls, Value.obj exSvcNoLanguage])])]

/-- The graph the mixed input builds: one node, no edges. -/
def exMixedGraph : MicroserviceGraph :=
  { graph :=
      { nodes := [{ name := "A",
                    language := Language.fromString "go",
                    ref_entities := [] }],
        edges := [] } }

/-- Witness for C2 amended on the mixed input: node count 1 = number of
records with all three fields resolvable. -/
theorem node_count_amended_witness :
    exMixedGraph.graph.nodes.length =
      [exSvcNoCalls, exSvcNoLanguage].countP (fun s =>
        (ressaExtractString s "name").toOption.isSome &&
        (ressaExtractString s "language").toOption.isSome &&
        (ressaExtractVec s "entities").toOption.isSome) :=
  node_count_amended exResultMixed egEmpty exMixedGraph
    [("services", Value.vec [Value.obj exSvcNoCalls, Value.obj exSvcNoLanguage])]
    [exSvcNoCalls, exSvcNoLanguage] rfl rfl (by decide)

/-- C5: a call record whose `method` extracts and parses as an HTTP verb
classifies as `Http` of that verb; a record whose `method` does not
extract classifies as `Rpc`; a `method` that extracts but does not parse
makes classification fail with the invalid-method error, and a build
that reaches such a call returns no graph. -/
theorem microserviceCall_classification (call : Record) :
    (∀ m v, ressaExtractString call "method" = .ok m → Method.fromStr m = some v →
        MicroserviceCall.tryFrom call = .ok (.Http v)) ∧
    (∀ e, ressaExtractString call "method" = .error e →
        MicroserviceCall.tryFrom call = .ok .Rpc) ∧
    (∀ m, ressaExtractString call "method" = .ok m → Method.fromStr m = none →
        MicroserviceCall.tryFrom call = .error (.InvalidType "Bad HTTP method") ∧
        (∀ (result : RessaResult) (eg : EntityGraph) (ctx : Record)
            (services : List Record) (p : String × List Record),
          List.lookup "ctx" result = some ctx →
          (ressaExtractVec ctx "services").toOption = some services →
          p ∈ services.filterMap MicroserviceGraph.extractCalls →
          call ∈ p.2 →
          MicroserviceGraph.tryNew result eg = none)) := by
  refine ⟨?_, ?_, ?_⟩
  · intro m v hm hv
    unfold MicroserviceCall.tryFrom
    rw [hm]
    dsimp only
    rw [hv]
  · intro e hm
    unfold MicroserviceCall.tryFrom
    rw [hm]
  · intro m hm hv
    have herr : MicroserviceCall.tryFrom call = .error (.InvalidType "Bad HTTP method") := by
      unfold MicroserviceCall.tryFrom
      rw [hm]
      dsimp only
      rw [hv]
    refine ⟨herr, fun result eg ctx services p h1 h2 hp hc => ?_⟩
    exact MicroserviceGraph.tryNew_eq_none_of_pair h1 h2 hp
      (MicroserviceGraph.serviceEdges_eq_none_of_call hc
        (fun n => MicroserviceGraph.callEdge_eq_none_of_badMethod n herr))

/-- A call record with an unparseable `method` string. -/
def exCallBadMethod : Record := [("name", Value.str "A"), ("method", Value.str "BAD METHOD")]

/-- A complete service record "A" whose single self-call carries the bad
method. -/
def exSvcBadMethod : Record :=
  [("name", Value.str "A"), ("language", Value.str "go"),
   ("entities", Value.vec []), ("calls", Value.vec [Value.obj exCallBadMethod])]

/-- The extraction result holding `exSvcBadMethod`. -/
def exResultBadMethod : RessaResult :=
  [("ctx", [("services", Value.vec [Value.obj exSvcBadMethod])])]

/-- Witness for C5: "POST" classifies as Http(POST), an empty record as
Rpc, "BAD METHOD" is the invalid-method error and aborts the enclosing
build. -/
theorem microserviceCall_classification_witness :
    MicroserviceCall.tryFrom [("method", Value.str "POST")] =
      .ok (.Http Method.POST) ∧
    MicroserviceCall.tryFrom [] = .ok .Rpc ∧
    MicroserviceCall.tryFrom exCallBadMethod = .error (.InvalidType "Bad HTTP method") ∧
    MicroserviceGraph.tryNew exResultBadMethod egEmpty = none :=
  ⟨(microserviceCall_classification [("method", Value.str "POST")]).1 "POST" Method.POST rfl rfl,
   (microserviceCall_classification []).2.1 (.MissingField "method") rfl,
   ((microserviceCall_classification exCallBadMethod).2.2 "BAD METHOD" rfl rfl).1,
   ((microserviceCall_classification exCallBadMethod).2.2 "BAD METHOD" rfl rfl).2
     exResultBadMethod egEmpty [("services", Value.vec [Value.obj exSvcBadMethod])]
     [exSvcBadMethod] ("A", [exCallBadMethod]) rfl rfl (List.Mem.head _) (List.Mem.head _)⟩

/-- C6: missing `name` or `type` makes Entity construction fail; the
records of the `fields` sequence are parsed independently, failing ones
silently dropped; an entity all of whose field records are malformed
still yields an Entity with its name and type set and an empty field
list. -/
theorem entity_tryFrom_error_policy (r : Record) :
    (∀ e, ressaExtractString r "name" = .error e → Entity.tryFrom r = .error e) ∧
    (∀ n e, ressaExtractString r "name" = .ok n →
        ressaExtractString r "type" = .error e → Entity.tryFrom r = .error e) ∧
    (∀ n t frecs, ressaExtractString r "name" = .ok n →
        ressaExtractString r "type" = .ok t →
        ressaExtractVec r "fields" = .ok frecs →
        Entity.tryFrom r = .ok
          { name := n,
            fields := frecs.filterMap (fun f => (Field.tryFrom f).toOption),
            ty := DatabaseType.fromString t } ∧
        ((∀ f ∈ frecs, ∃ e, Field.tryFrom f = .error e) →
          Entity.tryFrom r = .ok
            { name := n, fields := [], ty := DatabaseType.fromString t })) := by
  refine ⟨?_, ?_, ?_⟩
  · intro e he
    unfold Entity.tryFrom
    rw [he]
  · intro n e hn ht
    unfold Entity.tryFrom
    rw [hn]
    dsimp only
    rw [ht]
  · intro n t frecs hn ht hf
    have hok : Entity.tryFrom r = .ok
        { name := n,
          fields := frecs.filterMap (fun f => (Field.tryFrom f).toOption),
          ty := DatabaseType.fromString t } := by
      unfold Entity.tryFrom
      rw [hn]
      dsimp only
      rw [ht]
      dsimp only
      rw [hf]
    refine ⟨hok, fun hall => ?_⟩
    rw [hok]
    have : frecs.filterMap (fun f => (Field.tryFrom f).toOption) = [] := by
      rw [List.filterMap_eq_nil_iff]
      intro f hf'
      rcases hall f hf' with ⟨e, he⟩
      rw [he]
      rfl
    rw [this]

/-- An entity record whose two field records are each missing `name` or
`type`. -/
def exEntAllFieldsBad : Record :=
  [("name", Value.str "User"), ("type", Value.str "MySQL"),
   ("fields", Value.vec [Value.obj [("name", Value.str "id")],
                         Value.obj [("type", Value.str "int")]])]

/-- Witness for C6: the all-malformed-fields record still yields an
Entity with name and type set and an empty field list. -/
theorem entity_tryFrom_error_policy_witness :
    Entity.tryFrom exEntAllFieldsBad =
      .ok { name := "User", fields := [], ty := DatabaseType.fromString "MySQL" } :=
  ((entity_tryFrom_error_policy exEntAllFieldsBad).2.2 "User" "MySQL"
    [[("name", Value.str "id")], [("type", Value.str "int")]] rfl rfl rfl).2
    (by
      intro f hf
      rcases List.mem_cons.mp hf with rfl | hf2
      · exact ⟨.MissingField "type", rfl⟩
      rcases List.mem_cons.mp hf2 with rfl | hf3
      · exact ⟨.MissingField "name", rfl⟩
      · cases hf3)

/-- C7 counterexample: the service `exSvcRefUserNameOnly` declares an
entity reference exposing the name "User", and the entity list holds an
entity named "User"; the claim predicts `ref_entities = [userEntity]`,
but the built node has an empty `ref_entities`, because a declared
reference is parsed with `Entity::try_from` and this record has no
`type`/`fields`. -/
theorem ref_entities_claim_cex :
    ressaExtractString [("name", Value.str "User")] "name" = .ok "User" ∧
    userEntity.name = "User" ∧
    (MicroserviceGraph.buildNode [userEntity] exSvcRefUserNameOnly).map
      Microservice.ref_entities = some [] ∧
    (some [] : Option (List Entity)) ≠ some [userEntity] :=
  ⟨rfl, rfl, rfl, by decide⟩

/-- C7 amended: for a built service node, an entity of the graph is in
`ref_entities` exactly when its name equals the name of some declared
entity-reference record that parses as a full Entity (`name`, `type` and
`fields` all present); parsed names with no matching entity, and
declared records that fail to parse, are dropped without failing the
service. -/
theorem ref_entities_parsed_name_match
    (entities : List Entity) (s : Record) (n l : String) (ercs : List Record)
    (hn : ressaExtractString s "name" = .ok n)
    (hl : ressaExtractString s "language" = .ok l)
    (he : ressaExtractVec s "entities" = .ok ercs) :
    ∃ m, MicroserviceGraph.buildNode entities s = some m ∧ m.name = n ∧
      ∀ e, (e ∈ m.ref_entities ↔ e ∈ entities ∧
        e.name ∈ (ercs.filterMap
          (fun er => (Entity.tryFrom er).toOption)).map Entity.name) := by
  refine ⟨{ name := n,
            language := Language.fromString l,
            ref_entities := entities.filter (fun e =>
              ((ercs.filterMap (fun er => (Entity.tryFrom er).toOption)).map
                Entity.name).contains e.name) }, ?_, rfl, ?_⟩
  · unfold MicroserviceGraph.buildNode
    rw [hn]
    dsimp only
    rw [hl]
    dsimp only
    rw [he]
  · intro e
    simp [List.mem_filter]

/-- A full entity record for "User" (parses with `Entity::try_from`). -/
def exUserRec : Record :=
  [("name", Value.str "User"), ("type", Value.str "doc"), ("fields", Value.vec [])]

/-- A full entity record for "Ghost" (parses, but no graph entity bears
this name). -/
def exGhostRec : Record :=
  [("name", Value.str "Ghost"), ("type", Value.str "doc"), ("fields", Value.vec [])]

/-- A service declaring full entity-reference records "User" and
"Ghost". -/
def exSvcUserGhost : Record :=
  [("name", Value.str "A"), ("language", Value.str "go"),
   ("entities", Value.vec [Value.obj exUserRec, Value.obj exGhostRec])]

/-- Witness for C7 amended: declaring "User" and "Ghost" against an
entity list containing only "User". -/
theorem ref_entities_parsed_name_match_witness :
    ∃ m, MicroserviceGraph.buildNode [userEntity] exSvcUserGhost = some m ∧
      m.name = "A" ∧
      ∀ e, (e ∈ m.ref_entities ↔ e ∈ [userEntity] ∧
        e.name ∈ (([exUserRec, exGhostRec].filterMap
          (fun er => (Entity.tryFrom er).toOption)).map Entity.name)) :=
  ref_entities_parsed_name_match [userEntity] exSvcUserGhost "A" "go"
    [exUserRec, exGhostRec] rfl rfl rfl

/-- C8: every returned Microservice Graph has no dangling edges (every
edge's endpoints index existing nodes) and is complete: it carries
exactly one edge per call of every service pair that entered the edge
phase. -/
theorem tryNew_graph_invariants
    (result : RessaResult) (eg : EntityGraph) (g : MicroserviceGraph)
    (ctx : Record) (services : List Record)
    (h1 : List.lookup "ctx" result = some ctx)
    (h2 : (ressaExtractVec ctx "services").toOption = some services)
    (h3 : MicroserviceGraph.tryNew result eg = some g) :
    (∀ e ∈ g.graph.edges, e.1 < g.graph.nodes.length ∧ e.2.1 < g.graph.nodes.length) ∧
    g.graph.edges.length =
      ((services.filterMap MicroserviceGraph.extractCalls).map
        (fun p => p.2.length)).sum := by
  obtain ⟨edgeLists, htrav, hnodes, hedges⟩ :=
    MicroserviceGraph.tryNew_eq_some_inv h1 h2 h3
  constructor
  · intro e he
    rw [hedges] at he
    rcases List.mem_flatten.mp he with ⟨ls, hls, hels⟩
    rcases optionTraverse_mem htrav hls with ⟨p, hp, hse⟩
    unfold MicroserviceGraph.serviceEdges at hse
    cases hf : MicroserviceGraph.findIndex
        { nodes := services.filterMap (MicroserviceGraph.buildNode eg.graph.nodes),
          edges := [] }
        (List.range (services.filterMap
          (MicroserviceGraph.buildNode eg.graph.nodes)).length) p.1 with
    | none => rw [hf] at hse; cases hse
    | some serviceNdx =>
      rw [hf] at hse
      dsimp only at hse
      rcases optionTraverse_mem hse hels with ⟨call, hcall, hce⟩
      obtain ⟨he1, mB, hmB⟩ := MicroserviceGraph.callEdge_eq_some_inv hce
      obtain ⟨mA, hmA, _⟩ := MicroserviceGraph.findIndex_some hf
      constructor
      · rw [he1, hnodes]
        exact (List.get?_eq_some.mp hmA).1
      · rw [hnodes]
        exact (List.get?_eq_some.mp hmB).1
  · rw [hedges, List.length_flatten, optionTraverse_serviceEdges_map_length htrav]

/-- A complete service record "A" whose single call targets "A" itself
with method "GET". -/
def exSvcSelfCall : Record :=
  [("name", Value.str "A"), ("language", Value.str "go"), ("entities", Value.vec []),
   ("calls", Value.vec [Value.obj [("name", Value.str "A"), ("method", Value.str "GET")]])]

/-- The extraction result holding `exSvcSelfCall`. -/
def exResultSelfCall : RessaResult :=
  [("ctx", [("services", Value.vec [Value.obj exSvcSelfCall])])]

/-- The graph the self-call input builds: one node, one Http(GET) loop
edge. -/
def exSelfCallGraph : MicroserviceGraph :=
  { graph :=
      { nodes := [{ name := "A",
                    language := Language.fromString "go",
                    ref_entities := [] }],
        edges := [(0, 0, MicroserviceCall.Http Method.GET)] } }

/-- Witness for C8 on the self-call build. -/
theorem tryNew_graph_invariants_witness :
    (∀ e ∈ exSelfCallGraph.graph.edges,
        e.1 < exSelfCallGraph.graph.nodes.length ∧
        e.2.1 < exSelfCallGraph.graph.nodes.length) ∧
    exSelfCallGraph.graph.edges.length =
      (([exSvcSelfCall].filterMap MicroserviceGraph.extractCalls).map
        (fun p => p.2.length)).sum :=
  tryNew_graph_invariants exResultSelfCall egEmpty exSelfCallGraph
    [("services", Value.vec [Value.obj exSvcSelfCall])] [exSvcSelfCall] rfl rfl (by decide)

end Prophet
